import Mathlib

set_option maxRecDepth 8000

/-!
Shallow embedding of `Scripts/build_md_county_aggregated_results.py`.

Python string operations are modelled structurally on `List Char` (wrapped
back into `String` at the boundaries) so that every definition evaluates
inside the kernel.  ASCII behaviour is modelled exactly; non-ASCII special
cases of Python (`str.lower` on non-ASCII letters, Unicode digits in
`int`) are out of scope for the data this script processes.
-/

/-- Is the first list a prefix of the second?  Structural Bool version. -/
def prefixOf : List Char → List Char → Bool
  | [], _ => true
  | _ :: _, [] => false
  | c :: cs, d :: ds => c = d && prefixOf cs ds

/-- Python `pat in s` on character lists: does `pat` occur contiguously? -/
def containsSub (pat : List Char) : List Char → Bool
  | [] => pat.isEmpty
  | c :: cs => prefixOf pat (c :: cs) || containsSub pat cs

/-- Split at the first occurrence of `pat` (Python `s.split(pat, 1)` when it
yields two parts); `none` when `pat` does not occur. -/
def splitFirst (pat : List Char) : List Char → Option (List Char × List Char)
  | [] => if pat.isEmpty then some ([], []) else none
  | c :: cs =>
    if prefixOf pat (c :: cs) then some ([], (c :: cs).drop pat.length)
    else
      match splitFirst pat cs with
      | some (b, a) => some (c :: b, a)
      | none => none

/-- Python `str.strip` on a character list. -/
def stripChars (l : List Char) : List Char :=
  ((l.dropWhile Char.isWhitespace).reverse.dropWhile Char.isWhitespace).reverse

/-- Python `str.split()` (split on whitespace runs, dropping empty words);
`acc` holds the current word reversed. -/
def splitWsChars : List Char → List Char → List (List Char)
  | [], acc => if acc.isEmpty then [] else [acc.reverse]
  | c :: cs, acc =>
    if c.isWhitespace then
      if acc.isEmpty then splitWsChars cs [] else acc.reverse :: splitWsChars cs []
    else splitWsChars cs (c :: acc)

/-- Python `" ".join(words)`. -/
def joinSpace : List (List Char) → List Char
  | [] => []
  | [w] => w
  | w :: ws => w ++ ' ' :: joinSpace ws

/-- Python `str.strip`. -/
def pyStrip (s : String) : String := ⟨stripChars s.data⟩

/-- Python `str.lower` (ASCII). -/
def pyLower (s : String) : String := ⟨s.data.map Char.toLower⟩

/-- Python `str.upper` (ASCII). -/
def pyUpper (s : String) : String := ⟨s.data.map Char.toUpper⟩

/-- Python `pat in s`. -/
def containsSubStr (s pat : String) : Bool := containsSub pat.data s.data

/-- Python `s.split(pat, 1)`: `some (before, after)` when `pat` occurs. -/
def splitFirstStr (s pat : String) : Option (String × String) :=
  (splitFirst pat.data s.data).map (fun p => (⟨p.1⟩, ⟨p.2⟩))

/-- Python `s.endswith(pat)`. -/
def pyEndsWith (s pat : String) : Bool := prefixOf pat.data.reverse s.data.reverse

/-- Python `s.startswith(pat)`. -/
def pyStartsWith (s pat : String) : Bool := prefixOf pat.data s.data

/-- Python `s[:-n]` (drop `n` characters from the right). -/
def pyDropRight (s : String) (n : Nat) : String := ⟨(s.data.reverse.drop n).reverse⟩

/-- Python `s.replace` specialised to the single-character pattern the script
uses: backtick to apostrophe. -/
def fixBackticks (s : String) : String :=
  ⟨s.data.map (fun c => if c = '\u0060' then '\u0027' else c)⟩

/-- `_norm` from the script:
`" ".join((s or "").replace(backtick, apostrophe).strip().lower().split())`. -/
def _norm (s : String) : String :=
  ⟨joinSpace (splitWsChars ((stripChars (fixBackticks s).data).map Char.toLower) [])⟩

/-- Tail of a Python integer literal body: digits with single underscores
allowed between digits. -/
def pyDigitsRest : List Char → Bool
  | [] => true
  | c :: cs =>
    if c.isDigit then pyDigitsRest cs
    else if c = '_' then
      match cs with
      | d :: cs2 => d.isDigit && pyDigitsRest cs2
      | [] => false
    else false

/-- Body of a Python integer literal: a digit followed by `pyDigitsRest`. -/
def pyIntBody : List Char → Bool
  | [] => false
  | c :: cs => c.isDigit && pyDigitsRest cs

/-- Decimal value of a digit list. -/
def digitsVal (l : List Char) : Nat :=
  l.foldl (fun a c => a * 10 + (c.toNat - 48)) 0

/-- Python `int(s)` on a string: optional surrounding whitespace, an optional
sign, then digits (with underscore separators); `none` models `ValueError`. -/
def pyInt (s : String) : Option Int :=
  let cs := stripChars s.data
  let sgn : Int :=
    match cs with
    | c :: _ => if c = '-' then -1 else 1
    | [] => 1
  let body :=
    match cs with
    | c :: rest => if c = '-' || c = '+' then rest else cs
    | [] => []
  if pyIntBody body then some (sgn * (digitsVal (body.filter (fun c => c ≠ '_')) : Int))
  else none

/-- Vote parsing from `build`: `int((row.get("votes") or "0").strip())` with
`ValueError` coerced to 0. -/
def parseVotes (v : String) : Int :=
  match pyInt (pyStrip (if v = "" then "0" else v)) with
  | some n => n
  | none => 0

/-- `PARTY_MAP` from the script. -/
def PARTY_MAP : List (String × String) :=
  [("democratic", "DEM"), ("republican", "REP"), ("libertarian", "LIB"),
   ("independent", "IND"), ("reform", "REF"), ("green", "GRN"),
   ("alliance", "ALL"), ("taxpayers", "TAX"), ("natural-law", "NAT"),
   ("other", "OTH"), ("both parties", "BTH")]

/-- `CONTEST_FILTER` from the script: contest, contest type, office rank. -/
def CONTEST_FILTER : List (String × String × Nat) :=
  [("President", "Federal", 1), ("Governor", "State", 2),
   ("U.S. Senator", "Federal", 3), ("Attorney General", "State", 4),
   ("Comptroller", "State", 5)]

/-- `normalize_contest_name` from the script. -/
def normalize_contest_name (office : String) : String :=
  let office := pyStrip office
  if pyStartsWith office "Comptroller" then "Comptroller" else office

/-- `normalize_party` from the script (the local variable `p`, the trimmed
lowercased party, is inlined). -/
def normalize_party (party : String) : String :=
  match PARTY_MAP.find? (fun q => q.1 = pyLower (pyStrip party)) with
  | some q => q.2
  | none =>
    if pyLower (pyStrip party) = "" then "OTH" else pyUpper (pyLower (pyStrip party))

/-- `remove_running_mate` from the script (the local variable `candidate`,
the stripped name, is inlined).  Note the source checks for `" and "` in the
lowercased name but splits the original-case name, and its
`len(parts) == 2` test holds exactly when the separator occurs, which is the
`some` case of `splitFirstStr`. -/
def remove_running_mate (name : String) : String :=
  if pyStrip name = "" then pyStrip name
  else if containsSubStr (pyStrip name) "/" then
    match splitFirstStr (pyStrip name) "/" with
    | some (b, _) => pyStrip b
    | none => pyStrip (pyStrip name)
  else if containsSubStr (pyLower (pyStrip name)) " and " then
    match splitFirstStr (pyStrip name) " and " with
    | some (b, _) => pyStrip b
    | none => pyStrip name
  else pyStrip name

/-- `by_name.get(k, [])` on the association-list model of the lookup dict. -/
def lookupGet (t : List (String × List String)) (k : String) : List String :=
  ((t.find? (fun p => p.1 = k)).map (fun p => p.2)).getD []

/-- The local `raw` of `to_namelsad20`: `county.strip()` with backticks
replaced by apostrophes. -/
def rawCounty (county : String) : String := fixBackticks (pyStrip county)

/-- The local `nraw` of `to_namelsad20`. -/
def nrawCounty (county : String) : String := _norm (rawCounty county)

/-- The local `base` of `to_namelsad20`: strip a trailing " county" or
" city" suffix. -/
def baseOf (nraw : String) : String :=
  if pyEndsWith nraw " county" then pyStrip (pyDropRight nraw 7)
  else if pyEndsWith nraw " city" then pyStrip (pyDropRight nraw 5)
  else nraw

/-- `to_namelsad20` from the script (local variables are the helper
definitions above, inlined at each use). -/
def to_namelsad20 (county : String) (by_name : List (String × List String)) : String :=
  match
    (if nrawCounty county = "baltimore city" then
      (lookupGet by_name "baltimore").find? (fun x => containsSubStr (pyLower x) " city")
    else none) with
  | some city_name => city_name
  | none =>
    if (lookupGet by_name (baseOf (nrawCounty county))).length = 1 then
      (lookupGet by_name (baseOf (nrawCounty county))).headD ""
    else if 1 < (lookupGet by_name (baseOf (nrawCounty county))).length then
      match
        (if containsSubStr (nrawCounty county) "city" then
          (lookupGet by_name (baseOf (nrawCounty county))).find?
            (fun x => containsSubStr (pyLower x) " city")
        else none) with
      | some c => c
      | none =>
        match
          (lookupGet by_name (baseOf (nrawCounty county))).find?
            (fun x => containsSubStr (pyLower x) " county") with
        | some c => c
        | none => (lookupGet by_name (baseOf (nrawCounty county))).headD ""
    else
      if pyEndsWith (pyLower (rawCounty county)) " county" ||
          pyEndsWith (pyLower (rawCounty county)) " city" then rawCounty county
      else rawCounty county ++ " County"

/-- `CompetitivenessRating`: the dict returned by `competitiveness`. -/
structure Rating where
  category : String
  party : String
  code : String
  color : String
  label : String
deriving DecidableEq

/-- The local `party` of `competitiveness`. -/
def partyOf (winner : String) : String :=
  if winner = "REP" then "Republican" else "Democratic"

/-- The local `prefix` of `competitiveness`. -/
def pfxOf (winner : String) : String :=
  if winner = "REP" then "R" else "D"

/-- `competitiveness` from the script, on exact rationals (the local
variables `party` and `prefix` are the helper definitions above). -/
def competitiveness (margin_pct : ℚ) (winner : String) : Rating :=
  if winner = "TIE" ∨ margin_pct < 0.5 then
    { category := "Tossup", party := "Tossup", code := "TOSSUP",
      color := "#f7f7f7", label := "Tossup (<0.50%)" }
  else
    if 40 ≤ margin_pct then
      { category := "Annihilation", party := partyOf winner, code := pfxOf winner ++ "_ANNIHILATION",
        color := if winner = "REP" then "#67000d" else "#08306b",
        label := "Annihilation " ++ partyOf winner ++ " (>=40.00%)" }
    else if 30 ≤ margin_pct then
      { category := "Dominant", party := partyOf winner, code := pfxOf winner ++ "_DOMINANT",
        color := if winner = "REP" then "#a50f15" else "#08519c",
        label := "Dominant " ++ partyOf winner ++ " (30.00-39.99%)" }
    else if 20 ≤ margin_pct then
      { category := "Stronghold", party := partyOf winner, code := pfxOf winner ++ "_STRONGHOLD",
        color := if winner = "REP" then "#cb181d" else "#3182bd",
        label := "Stronghold " ++ partyOf winner ++ " (20.00-29.99%)" }
    else if 10 ≤ margin_pct then
      { category := "Safe", party := partyOf winner, code := pfxOf winner ++ "_SAFE",
        color := if winner = "REP" then "#ef3b2c" else "#6baed6",
        label := "Safe " ++ partyOf winner ++ " (10.00-19.99%)" }
    else if 5.5 ≤ margin_pct then
      { category := "Likely", party := partyOf winner, code := pfxOf winner ++ "_LIKELY",
        color := if winner = "REP" then "#fb6a4a" else "#9ecae1",
        label := "Likely " ++ partyOf winner ++ " (5.50-9.99%)" }
    else if 1 ≤ margin_pct then
      { category := "Lean", party := partyOf winner, code := pfxOf winner ++ "_LEAN",
        color := if winner = "REP" then "#fcae91" else "#c6dbef",
        label := "Lean " ++ partyOf winner ++ " (1.00-5.49%)" }
    else
      { category := "Tilt", party := partyOf winner, code := pfxOf winner ++ "_TILT",
        color := if winner = "REP" then "#fee8c8" else "#e1f5fe",
        label := "Tilt " ++ partyOf winner ++ " (0.50-0.99%)" }

/-- One CSV row as consumed by `build` (absent fields model as the empty
string, matching `row.get(...) or ""`). -/
structure Row where
  office : String
  county : String
  party : String
  candidate : String
  votes : String

abbrev CandMap := List (String × Int)

abbrev PartyMap := List (String × CandMap)

abbrev CountyMap := List (String × PartyMap)

abbrev ContestMap := List (String × CountyMap)

/-- `tally`: year → contest → county → party → candidate → votes. -/
abbrev Tally := List (String × ContestMap)

/-- Insert-or-update on an association list: the defaultdict semantics of the
script (a new key appears at the end, in insertion order). -/
def upsert {β : Type} (k : String) (d : β) (f : β → β) :
    List (String × β) → List (String × β)
  | [] => [(k, f d)]
  | (k2, v) :: rest => if k2 = k then (k2, f v) :: rest else (k2, v) :: upsert k d f rest

/-- `tally[year][contest][county][party][candidate] += votes`. -/
def addVote (t : Tally) (y c co p ca : String) (v : Int) : Tally :=
  upsert y [] (fun cm =>
    upsert c [] (fun com =>
      upsert co [] (fun pm =>
        upsert p [] (fun cam => upsert ca 0 (fun n => n + v) cam) pm) com) cm) t

/-- Is `contest` a key of `CONTEST_FILTER`? -/
def inContestFilter (contest : String) : Bool :=
  (CONTEST_FILTER.find? (fun q => q.1 = contest)).isSome

/-- The body of the row loop in `build`. -/
def processRow (lookup : List (String × List String)) (year : String)
    (t : Tally) (row : Row) : Tally :=
  let contest := normalize_contest_name (pyStrip row.office)
  if inContestFilter contest then
    let county := to_namelsad20 (pyStrip row.county) lookup
    let party_code := normalize_party row.party
    let cand0 := remove_running_mate (pyStrip row.candidate)
    let candidate := if cand0 = "" then "Unknown" else cand0
    addVote t year contest county party_code candidate (parseVotes row.votes)
  else t

/-- One iteration of the file loop of `build`: the input is (file name,
rows); the year is the first four characters of the name, and a file whose
year does not parse as an integer is skipped. -/
def processFile (lookup : List (String × List String)) (t : Tally)
    (f : String × List Row) : Tally :=
  if (pyInt ⟨f.1.data.take 4⟩).isSome then
    f.2.foldl (processRow lookup ⟨f.1.data.take 4⟩) t
  else t

/-- The file loop of `build`. -/
def buildTally (lookup : List (String × List String))
    (files : List (String × List Row)) : Tally :=
  files.foldl (processFile lookup) []

/-- `sum(d.values())`. -/
def sumValues (l : List (String × Int)) : Int := (l.map (fun p => p.2)).sum

/-- `d.get(k)` on an association list. -/
def lookupAssoc {β : Type} (l : List (String × β)) (k : String) : Option β :=
  (l.find? (fun p => p.1 = k)).map (fun p => p.2)

/-- `Counter(m).most_common(1)[0][0]`: the key with the largest count, ties
broken in favour of the earlier insertion. -/
def mostCommon (m : CandMap) : String :=
  match m with
  | [] => ""
  | x :: xs => (xs.foldl (fun best p => if best.2 < p.2 then p else best) x).1

/-- Round half to even at two decimals: models Python `round(x, 2)` on the
exact rational value (binary floating-point representation error is not
modelled). -/
def round2 (q : ℚ) : ℚ :=
  let x := q * 100
  let f : ℤ := ⌊x⌋
  let r := x - f
  let n : ℤ :=
    if r < 1/2 then f
    else if 1/2 < r then f + 1
    else if f % 2 = 0 then f else f + 1
  (n : ℚ) / 100

/-- Fixed two-decimal rendering of a non-negative, already-rounded rational:
models the format string `.2f` applied to `margin_pct`. -/
def fmt2 (q : ℚ) : String :=
  let n : ℤ := ⌊q * 100⌋
  let ip := n / 100
  let fp := (n % 100).toNat
  toString ip ++ "." ++ (if fp < 10 then "0" ++ toString fp else toString fp)

/-- `ContestSummary`: the per-(year, contest, county) record built by `build`. -/
structure Summary where
  county : String
  contest : String
  contest_type : String
  office_rank : Nat
  year : String
  dem_candidate : String
  rep_candidate : String
  dem_votes : Int
  rep_votes : Int
  dem_pct : ℚ
  rep_pct : ℚ
  other_votes : Int
  total_votes : Int
  two_party_total : Int
  margin : Int
  margin_pct : String
  winner : String
  competitiveness : Rating
  all_parties : List (String × Int)

/-- The summary computation for one (year, contest, county) bucket. -/
def summarize (year contest county : String) (by_party : PartyMap) : Summary :=
  let party_totals := by_party.map (fun p => (p.1, sumValues p.2))
  let dem_votes := (lookupAssoc party_totals "DEM").getD 0
  let rep_votes := (lookupAssoc party_totals "REP").getD 0
  let total_votes := sumValues party_totals
  let two_party_total := dem_votes + rep_votes
  let other_votes := total_votes - two_party_total
  let dem_candidate :=
    match lookupAssoc by_party "DEM" with
    | some l => if l.isEmpty then "" else mostCommon l
    | none => ""
  let rep_candidate :=
    match lookupAssoc by_party "REP" with
    | some l => if l.isEmpty then "" else mostCommon l
    | none => ""
  let margin := |dem_votes - rep_votes|
  let margin_pct : ℚ :=
    if 0 < total_votes then round2 ((margin : ℚ) / (total_votes : ℚ) * 100) else 0
  let winner :=
    if rep_votes < dem_votes then "DEM"
    else if dem_votes < rep_votes then "REP"
    else "TIE"
  let dem_pct : ℚ :=
    if 0 < total_votes then round2 ((dem_votes : ℚ) / (total_votes : ℚ) * 100) else 0
  let rep_pct : ℚ :=
    if 0 < total_votes then round2 ((rep_votes : ℚ) / (total_votes : ℚ) * 100) else 0
  let meta := ((CONTEST_FILTER.find? (fun q => q.1 = contest)).map (fun q => q.2)).getD ("", 0)
  { county := county, contest := contest, contest_type := meta.1, office_rank := meta.2,
    year := year, dem_candidate := dem_candidate, rep_candidate := rep_candidate,
    dem_votes := dem_votes, rep_votes := rep_votes, dem_pct := dem_pct, rep_pct := rep_pct,
    other_votes := other_votes, total_votes := total_votes,
    two_party_total := two_party_total, margin := margin, margin_pct := fmt2 margin_pct,
    winner := winner, competitiveness := competitiveness margin_pct winner,
    all_parties := party_totals }

/-- Python `sorted` on string keys (ascending lexicographic on code points). -/
def pySorted (l : List String) : List String :=
  List.insertionSort (fun a b => a ≤ b) l

abbrev ResultsByYear := List (String × List (String × List (String × Summary)))

/-- `tally[year]`. -/
def contestOf (t : Tally) (y : String) : ContestMap := (lookupAssoc t y).getD []

/-- `tally[year][contest]`. -/
def countyOf (t : Tally) (y c : String) : CountyMap :=
  (lookupAssoc (contestOf t y) c).getD []

/-- `by_party = tally[year][contest][county]`. -/
def bucketOf (t : Tally) (y c co : String) : PartyMap :=
  (lookupAssoc (countyOf t y c) co).getD []

/-- `results_by_year`: iterate year, contest, county keys of the tally in
sorted order, summarising each bucket. -/
def buildResults (t : Tally) : ResultsByYear :=
  (pySorted (t.map (fun p => p.1))).map (fun y =>
    (y, (pySorted ((contestOf t y).map (fun p => p.1))).map (fun c =>
      (c, (pySorted ((countyOf t y c).map (fun p => p.1))).map (fun co =>
        (co, summarize y c co (bucketOf t y c co)))))))

/-- Modelled from the spec: the `CountyLookupTable` built by
`load_namelsad20_lookup` from the external geographic reference (the TIGER
county shapefile for state FIPS 24), data that is not part of the repository.
Keys are `_norm` of the short name `NAME20`; values are the full descriptive
names `NAMELSAD20` of Maryland's 24 county-equivalents, grouped by base name
("Baltimore" names both a county and an independent city). -/
def mdByName : List (String × List String) :=
  [("allegany", ["Allegany County"]),
   ("anne arundel", ["Anne Arundel County"]),
   ("baltimore", ["Baltimore County", "Baltimore city"]),
   ("calvert", ["Calvert County"]),
   ("caroline", ["Caroline County"]),
   ("carroll", ["Carroll County"]),
   ("cecil", ["Cecil County"]),
   ("charles", ["Charles County"]),
   ("dorchester", ["Dorchester County"]),
   ("frederick", ["Frederick County"]),
   ("garrett", ["Garrett County"]),
   ("harford", ["Harford County"]),
   ("howard", ["Howard County"]),
   ("kent", ["Kent County"]),
   ("montgomery", ["Montgomery County"]),
   ("prince george\u0027s", ["Prince George\u0027s County"]),
   ("queen anne\u0027s", ["Queen Anne\u0027s County"]),
   ("st. mary\u0027s", ["St. Mary\u0027s County"]),
   ("somerset", ["Somerset County"]),
   ("talbot", ["Talbot County"]),
   ("washington", ["Washington County"]),
   ("wicomico", ["Wicomico County"]),
   ("worcester", ["Worcester County"])]

/-- All candidate counts of a candidate map are non-negative. -/
def CandNonneg (m : CandMap) : Prop := ∀ p ∈ m, (0 : Int) ≤ p.2

/-- All counts below a party map are non-negative. -/
def PartyNonneg (m : PartyMap) : Prop := ∀ p ∈ m, CandNonneg p.2

/-- All counts below a county map are non-negative. -/
def CountyNonneg (m : CountyMap) : Prop := ∀ p ∈ m, PartyNonneg p.2

/-- All counts below a contest map are non-negative. -/
def ContestNonneg (m : ContestMap) : Prop := ∀ p ∈ m, CountyNonneg p.2

/-- Every per-candidate vote count stored in the tally is non-negative. -/
def TallyNonneg (t : Tally) : Prop :=
  ∀ p1 ∈ t, ∀ p2 ∈ p1.2, ∀ p3 ∈ p2.2, ∀ p4 ∈ p3.2, ∀ p5 ∈ p4.2, (0 : Int) ≤ p5.2

/-- The key lists of `results_by_year` are sorted at every level. -/
def ResultsSorted (r : ResultsByYear) : Prop :=
  List.Sorted (fun a b => a ≤ b) (r.map (fun p => p.1)) ∧
  ∀ y ∈ r, List.Sorted (fun a b => a ≤ b) (y.2.map (fun p => p.1)) ∧
    ∀ c ∈ y.2, List.Sorted (fun a b => a ≤ b) (c.2.map (fun p => p.1))

/-- A one-row input whose vote field is "-5". -/
def negVoteFiles : List (String × List Row) :=
  [("2020__md__general__county.csv",
    [{ office := "Governor", county := "Anywhere County", party := "Democratic",
       candidate := "Smith", votes := "-5" }])]

/-- A one-row input with an ordinary positive vote field. -/
def posVoteFiles : List (String × List Row) :=
  [("2020__md__general__county.csv",
    [{ office := "Governor", county := "Anywhere County", party := "Democratic",
       candidate := "Smith", votes := "600" }])]

instance : DecidableEq CandMap := inferInstance

instance : DecidableEq PartyMap := inferInstance

instance : DecidableEq CountyMap := inferInstance

instance : DecidableEq ContestMap := inferInstance

instance : DecidableEq Tally := inferInstance

instance instDecTallyNonneg (t : Tally) : Decidable (TallyNonneg t) := by
  unfold TallyNonneg
  infer_instance

example : remove_running_mate "Smith/Jones" = "Smith" := by decide
example : remove_running_mate "Smith and Jones" = "Smith" := by decide
example : remove_running_mate "Smith AND Jones" = "Smith AND Jones" := by decide
example : remove_running_mate "" = "" := by decide
example : normalize_party "Democratic" = "DEM" := by decide
example : normalize_party "" = "OTH" := by decide
example : normalize_party "x" = "X" := by decide
example : pyInt "-5" = some (-5) := by decide
example : pyInt "1_000" = some 1000 := by decide
example : pyInt "_5" = none := by decide
example : pyInt "" = none := by decide
example : (competitiveness 20 "DEM").code = "D_STRONGHOLD" := by
  norm_num [competitiveness]
  decide
example : (competitiveness 0.5 "DEM").category = "Tilt" := by
  norm_num [competitiveness]
  decide
example : (competitiveness 3 "TIE").category = "Tossup" := by
  norm_num [competitiveness]
example : _norm "  Baltimore   CITY " = "baltimore city" := by decide

example : to_namelsad20 "Baltimore City" mdByName = "Baltimore city" := by decide
example : to_namelsad20 "Baltimore County" mdByName = "Baltimore County" := by decide
example : to_namelsad20 "St. Mary's County" mdByName = "St. Mary's County" := by decide
example : to_namelsad20 "" mdByName = " County" := by decide
example : to_namelsad20 "Anywhere" mdByName = "Anywhere County" := by decide
example :
    buildTally mdByName negVoteFiles =
      [("2020", [("Governor", [("Anywhere County", [("DEM", [("Smith", -5)])])])])] := by
  decide
example : ¬ TallyNonneg (buildTally mdByName negVoteFiles) := by decide
example :
    ∀ p ∈ mdByName, ∀ v ∈ p.2, to_namelsad20 v mdByName = v := by decide

/-! ### Lemmas about the string primitives -/

lemma prefixOf_append (p r : List Char) : prefixOf p (p ++ r) = true := by
  induction p with
  | nil => rfl
  | cons c cs ih => simp [prefixOf, ih]

lemma prefixOf_decomp (p : List Char) :
    ∀ l, prefixOf p l = true → ∃ r, l = p ++ r := by
  induction p with
  | nil => exact fun l _ => ⟨l, rfl⟩
  | cons c cs ih =>
    intro l h
    cases l with
    | nil => exact absurd h (by simp [prefixOf])
    | cons d ds =>
      simp only [prefixOf, Bool.and_eq_true, decide_eq_true_eq] at h
      obtain ⟨hcd, h2⟩ := h
      obtain ⟨r, hr⟩ := ih ds h2
      exact ⟨r, by rw [← hcd, hr, List.cons_append]⟩

lemma containsSub_append (p b a : List Char) (hp : p ≠ []) :
    containsSub p (b ++ (p ++ a)) = true := by
  induction b with
  | nil =>
    cases p with
    | nil => exact absurd rfl hp
    | cons c cs =>
      have hpre : prefixOf (c :: cs) (c :: (cs ++ a)) = true := by
        rw [← List.cons_append]
        exact prefixOf_append _ _
      simp [containsSub, hpre]
  | cons d ds ih =>
    simp [containsSub, ih]

lemma splitFirst_decomp (pat : List Char) (hp : pat ≠ []) :
    ∀ l b a, splitFirst pat l = some (b, a) → l = b ++ (pat ++ a) := by
  intro l
  induction l with
  | nil =>
    intro b a h
    unfold splitFirst at h
    rw [if_neg (by simpa using hp)] at h
    exact absurd h (by simp)
  | cons c cs ih =>
    intro b a h
    unfold splitFirst at h
    by_cases hpre : prefixOf pat (c :: cs) = true
    · rw [if_pos hpre] at h
      simp only [Option.some.injEq, Prod.mk.injEq] at h
      obtain ⟨hb, ha⟩ := h
      subst hb
      subst ha
      obtain ⟨r, hr⟩ := prefixOf_decomp pat (c :: cs) hpre
      rw [List.nil_append, hr, List.drop_left]
    · rw [if_neg hpre] at h
      cases hm : splitFirst pat cs with
      | none => rw [hm] at h; exact absurd h (by simp)
      | some p =>
        obtain ⟨b2, a2⟩ := p
        rw [hm] at h
        simp only [Option.some.injEq, Prod.mk.injEq] at h
        obtain ⟨hb, ha⟩ := h
        subst hb
        subst ha
        rw [ih b2 a2 hm, List.cons_append]

lemma containsSub_of_splitFirst (pat l b a : List Char) (hp : pat ≠ [])
    (h : splitFirst pat l = some (b, a)) : containsSub pat l = true := by
  rw [splitFirst_decomp pat hp l b a h]
  exact containsSub_append pat b a hp

lemma splitFirst_isSome_of_containsSub (pat : List Char) :
    ∀ l, containsSub pat l = true → (splitFirst pat l).isSome = true := by
  intro l
  induction l with
  | nil =>
    intro h
    unfold containsSub at h
    unfold splitFirst
    rw [if_pos h]
    rfl
  | cons c cs ih =>
    intro h
    unfold containsSub at h
    unfold splitFirst
    by_cases hpre : prefixOf pat (c :: cs) = true
    · rw [if_pos hpre]; rfl
    · rw [if_neg hpre]
      have h2 : containsSub pat cs = true := by
        rcases Bool.or_eq_true_iff.mp h with h1 | h1
        · exact absurd h1 hpre
        · exact h1
      have h3 := ih h2
      cases hm : splitFirst pat cs with
      | none => rw [hm] at h3; exact absurd h3 (by simp)
      | some p => obtain ⟨b2, a2⟩ := p; rfl

lemma containsSub_lower_of_splitFirst (pat l b a : List Char) (hp : pat ≠ [])
    (hpat : pat.map Char.toLower = pat)
    (h : splitFirst pat l = some (b, a)) :
    containsSub pat (l.map Char.toLower) = true := by
  rw [splitFirst_decomp pat hp l b a h, List.map_append, List.map_append, hpat]
  exact containsSub_append _ _ _ hp

lemma containsSubStr_of_splitFirstStr (s pat b a : String) (hp : pat.data ≠ [])
    (h : splitFirstStr s pat = some (b, a)) : containsSubStr s pat = true := by
  unfold splitFirstStr at h
  unfold containsSubStr
  cases hm : splitFirst pat.data s.data with
  | none => rw [hm] at h; exact absurd h (by simp)
  | some p => exact containsSub_of_splitFirst _ _ p.1 p.2 hp (by rw [hm])

lemma containsSubStr_false_of_splitFirstStr_none (s pat : String)
    (h : splitFirstStr s pat = none) : containsSubStr s pat = false := by
  cases hcb : containsSubStr s pat with
  | false => rfl
  | true =>
    exfalso
    unfold containsSubStr at hcb
    have h2 := splitFirst_isSome_of_containsSub pat.data s.data hcb
    unfold splitFirstStr at h
    cases hm : splitFirst pat.data s.data with
    | none => rw [hm] at h2; exact absurd h2 (by simp)
    | some p => rw [hm] at h; exact absurd h (by simp)

lemma lower_contains_of_splitFirstStr (s b a : String)
    (h : splitFirstStr s " and " = some (b, a)) :
    containsSubStr (pyLower s) " and " = true := by
  unfold splitFirstStr at h
  show containsSub (" and ".data) (s.data.map Char.toLower) = true
  cases hm : splitFirst (" and ".data) s.data with
  | none => rw [hm] at h; exact absurd h (by simp)
  | some p =>
    exact containsSub_lower_of_splitFirst _ _ p.1 p.2 (by decide) (by decide) (by rw [hm])

/-! ### C4: remove_running_mate -/

/-- C4 counterexample: the claim says a case-insensitive `" and "` occurrence
(such as "Smith AND Jones") is stripped, but the code splits the
original-case string, so `remove_running_mate "Smith AND Jones"` is the name
unchanged, not "Smith". -/
theorem remove_running_mate_mixed_case_cex :
    remove_running_mate "Smith AND Jones" ≠ "Smith" ∧
    remove_running_mate "Smith AND Jones" = "Smith AND Jones" := by
  constructor
  · decide
  · decide

/-- C4 amended: for every candidate name, if the trimmed name contains "/"
the result is the trimmed text before the first "/"; otherwise if the
lowercase word `" and "` occurs literally in the trimmed name the result is
the trimmed text before that occurrence; otherwise (including when `" and "`
matches only case-insensitively) the result is the trimmed name unchanged;
and empty (or all-whitespace) input returns the empty string. -/
theorem remove_running_mate_spec (name : String) :
    (∀ b a : String, splitFirstStr (pyStrip name) "/" = some (b, a) →
      remove_running_mate name = pyStrip b) ∧
    (splitFirstStr (pyStrip name) "/" = none →
      ∀ b a : String, splitFirstStr (pyStrip name) " and " = some (b, a) →
      remove_running_mate name = pyStrip b) ∧
    (splitFirstStr (pyStrip name) "/" = none →
      splitFirstStr (pyStrip name) " and " = none →
      remove_running_mate name = pyStrip name) ∧
    (pyStrip name = "" → remove_running_mate name = "") := by
  refine ⟨?_, ?_, ?_, ?_⟩
  · intro b a h
    have hne : ¬(pyStrip name = "") := by
      intro he
      rw [he, show splitFirstStr "" "/" = (none : Option (String × String)) from by decide] at h
      exact Option.noConfusion h
    have hcon := containsSubStr_of_splitFirstStr _ _ _ _ (by decide) h
    unfold remove_running_mate
    rw [if_neg hne, if_pos hcon, h]
  · intro hno b a h
    have hne : ¬(pyStrip name = "") := by
      intro he
      rw [he,
        show splitFirstStr "" " and " = (none : Option (String × String)) from by decide] at h
      exact Option.noConfusion h
    have hcon1 := containsSubStr_false_of_splitFirstStr_none _ _ hno
    have hcon2 := lower_contains_of_splitFirstStr _ _ _ h
    unfold remove_running_mate
    rw [if_neg hne, hcon1, if_neg (by simp), if_pos hcon2, h]
  · intro hno1 hno2
    by_cases hne : pyStrip name = ""
    · unfold remove_running_mate
      rw [if_pos hne]
    · have hcon1 := containsSubStr_false_of_splitFirstStr_none _ _ hno1
      unfold remove_running_mate
      rw [if_neg hne, hcon1, if_neg (by simp)]
      cases hcb : containsSubStr (pyLower (pyStrip name)) " and " with
      | false => rw [if_neg (by simp)]
      | true => rw [if_pos rfl, hno2]
  · intro he
    unfold remove_running_mate
    rw [if_pos he, he]

/-- C4 witness: the amended theorem applied at the spec's own examples. -/
theorem remove_running_mate_spec_witness :
    remove_running_mate "Smith/Jones" = pyStrip "Smith" ∧
    remove_running_mate "Smith and Jones" = pyStrip "Smith" ∧
    remove_running_mate "Smith" = pyStrip "Smith" ∧
    remove_running_mate "" = "" :=
  ⟨(remove_running_mate_spec "Smith/Jones").1 "Smith" "Jones" (by decide),
   (remove_running_mate_spec "Smith and Jones").2.1 (by decide) "Smith" "Jones" (by decide),
   (remove_running_mate_spec "Smith").2.2.1 (by decide) (by decide),
   (remove_running_mate_spec "").2.2.2 (by decide)⟩

/-! ### C5: normalize_party -/

/-- C5 counterexample: `normalize_party "x"` is "X", which has 1 letter, not
3 — an unmapped non-empty party passes through uppercased at its original
length, so the party component of a tally key is not always a 3-letter code. -/
theorem normalize_party_length_cex :
    normalize_party "x" = "X" ∧ ¬((normalize_party "x").length = 3) := by
  constructor
  · decide
  · decide

/-- C5 amended: `normalize_party` maps synonym-table entries to their
3-letter codes and empty input to "OTH"; the returned code has exactly 3
letters whenever the trimmed, lowercased input is empty or a synonym-table
key (unmapped non-empty values pass through uppercased at their original
length). -/
theorem normalize_party_code_length (party : String)
    (h : pyLower (pyStrip party) = "" ∨
      (PARTY_MAP.find? (fun q => q.1 = pyLower (pyStrip party))).isSome = true) :
    (normalize_party party).length = 3 ∧ normalize_party "" = "OTH" := by
  refine ⟨?_, by decide⟩
  unfold normalize_party
  rcases h with h | h
  · rw [h]
    decide
  · cases hm : PARTY_MAP.find? (fun q => q.1 = pyLower (pyStrip party)) with
    | none => rw [hm] at h; exact absurd h (by simp)
    | some q =>
      have hq : q ∈ PARTY_MAP := List.mem_of_find?_eq_some hm
      have hall : ∀ x ∈ PARTY_MAP, x.2.length = 3 := by decide
      exact hall q hq

/-- C5 witness: the amended theorem applied at a synonym-table entry. -/
theorem normalize_party_code_length_witness :
    (normalize_party "Democratic").length = 3 ∧ normalize_party "" = "OTH" :=
  normalize_party_code_length "Democratic" (Or.inr (by decide))

/-! ### C1, C2, C9: competitiveness -/

lemma competitiveness_tie_zero :
    competitiveness 0 "TIE" =
      { category := "Tossup", party := "Tossup", code := "TOSSUP",
        color := "#f7f7f7", label := "Tossup (<0.50%)" } := by
  unfold competitiveness
  rw [if_pos (Or.inl rfl)]

/-- C1: for every margin_pct ≥ 0 and every winner, `competitiveness` returns
the party-neutral Tossup rating exactly when the winner is "TIE" or the
margin is below 0.50. -/
theorem competitiveness_tossup_iff (m : ℚ) (w : String) (_hm : 0 ≤ m) :
    competitiveness m w = competitiveness 0 "TIE" ↔ (w = "TIE" ∨ m < 0.5) := by
  constructor
  · intro h
    by_contra hc
    rw [competitiveness_tie_zero] at h
    unfold competitiveness at h
    rw [if_neg hc] at h
    have hcat := congrArg Rating.category h
    split_ifs at hcat <;> (dsimp only at hcat; exact absurd hcat (by decide))
  · intro h
    rw [competitiveness_tie_zero]
    unfold competitiveness
    rw [if_pos h]

/-- C1 witness: `competitiveness` at margin 3 with winner "TIE" is the Tossup
rating, and at margin 0.5 with winner "DEM" it is not. -/
theorem competitiveness_tossup_iff_witness :
    competitiveness 3 "TIE" = competitiveness 0 "TIE" ∧
    competitiveness 0.5 "DEM" ≠ competitiveness 0 "TIE" :=
  ⟨(competitiveness_tossup_iff 3 "TIE" (by norm_num)).2 (Or.inl rfl),
   fun h =>
     absurd ((competitiveness_tossup_iff 0.5 "DEM" (by norm_num)).1 h)
       (by push_neg; exact ⟨by decide, by norm_num⟩)⟩

/-- C2: for winner "DEM" or "REP" and margin_pct ≥ 0.5, the category is
assigned by the first matching lower-bound-inclusive threshold in descending
order (≥40 Annihilation, ≥30 Dominant, ≥20 Stronghold, ≥10 Safe, ≥5.5
Likely, ≥1 Lean, else Tilt); in particular margin 20.00 with winner "DEM"
gives category "Stronghold" and code "D_STRONGHOLD". -/
theorem competitiveness_band_thresholds (m : ℚ) (w : String)
    (hm : 0.5 ≤ m) (hw : w = "DEM" ∨ w = "REP") :
    (competitiveness m w).category =
      (if 40 ≤ m then "Annihilation"
       else if 30 ≤ m then "Dominant"
       else if 20 ≤ m then "Stronghold"
       else if 10 ≤ m then "Safe"
       else if 5.5 ≤ m then "Likely"
       else if 1 ≤ m then "Lean"
       else "Tilt") ∧
    (competitiveness 20 "DEM").category = "Stronghold" ∧
    (competitiveness 20 "DEM").code = "D_STRONGHOLD" := by
  have hnot : ¬(w = "TIE" ∨ m < 0.5) := by
    push_neg
    refine ⟨?_, hm⟩
    rcases hw with h | h <;> (subst h; decide)
  refine ⟨?_, ?_, ?_⟩
  · unfold competitiveness
    rw [if_neg hnot]
    split_ifs <;> rfl
  · norm_num [competitiveness]
    decide
  · norm_num [competitiveness]
    decide

/-- C2 witness: the threshold table applied at margin 20 with winner "DEM". -/
theorem competitiveness_band_thresholds_witness :
    (competitiveness 20 "DEM").category =
      (if (40:ℚ) ≤ 20 then "Annihilation"
       else if (30:ℚ) ≤ 20 then "Dominant"
       else if (20:ℚ) ≤ 20 then "Stronghold"
       else if (10:ℚ) ≤ 20 then "Safe"
       else if (5.5:ℚ) ≤ 20 then "Likely"
       else if (1:ℚ) ≤ 20 then "Lean"
       else "Tilt") ∧
    (competitiveness 20 "DEM").category = "Stronghold" ∧
    (competitiveness 20 "DEM").code = "D_STRONGHOLD" :=
  competitiveness_band_thresholds 20 "DEM" (by norm_num) (Or.inl rfl)

/-- C9: `competitiveness` does not validate its winner argument: for
margin_pct ≥ 0.5, any winner other than "REP" and "TIE" (not just "DEM")
gets the Democratic side (party "Democratic", code prefixed "D"), and only
the exact string "REP" selects the Republican side. -/
theorem competitiveness_winner_unvalidated (m : ℚ) (w : String)
    (hm : 0.5 ≤ m) (hw1 : w ≠ "REP") (hw2 : w ≠ "TIE") :
    (competitiveness m w).party = "Democratic" ∧
    pyStartsWith (competitiveness m w).code "D" = true ∧
    (competitiveness m "REP").party = "Republican" := by
  have hnot : ¬(w = "TIE" ∨ m < 0.5) := by
    push_neg
    exact ⟨hw2, hm⟩
  have hnotR : ¬(("REP" : String) = "TIE" ∨ m < 0.5) := by
    push_neg
    exact ⟨by decide, hm⟩
  have hparty : partyOf w = "Democratic" := by
    unfold partyOf
    rw [if_neg hw1]
  have hpfx : pfxOf w = "D" := by
    unfold pfxOf
    rw [if_neg hw1]
  refine ⟨?_, ?_, ?_⟩
  · unfold competitiveness
    rw [if_neg hnot]
    split_ifs <;> exact hparty
  · unfold competitiveness
    rw [if_neg hnot]
    split_ifs <;> rw [hpfx] <;> dsimp only <;> decide
  · unfold competitiveness
    rw [if_neg hnotR]
    split_ifs <;> rfl

/-- C9 witness: winner "GREEN" (neither "DEM", "REP" nor "TIE") at margin 7
is classified on the Democratic side. -/
theorem competitiveness_winner_unvalidated_witness :
    (competitiveness 7 "GREEN").party = "Democratic" ∧
    pyStartsWith (competitiveness 7 "GREEN").code "D" = true ∧
    (competitiveness 7 "REP").party = "Republican" :=
  competitiveness_winner_unvalidated 7 "GREEN" (by norm_num) (by decide) (by decide)

/-! ### C6, C7, C10: county resolution -/

/-- C6: county resolution is idempotent — for every canonical geographic
name stored as a value of the lookup table (modelled from the spec as
Maryland's county-equivalents, see `mdByName`), resolving that name with the
same lookup returns the name itself unchanged. -/
theorem to_namelsad20_idempotent :
    ∀ p ∈ mdByName, ∀ v ∈ p.2, to_namelsad20 v mdByName = v := by decide

/-- C6 witness: the theorem applied to the Baltimore group and the
independent city's canonical name. -/
theorem to_namelsad20_idempotent_witness :
    ("baltimore", ["Baltimore County", "Baltimore city"]) ∈ mdByName ∧
    "Baltimore city" ∈ ["Baltimore County", "Baltimore city"] ∧
    to_namelsad20 "Baltimore city" mdByName = "Baltimore city" :=
  ⟨by decide, by decide,
   to_namelsad20_idempotent ("baltimore", ["Baltimore County", "Baltimore city"])
     (by decide) "Baltimore city" (by decide)⟩

/-- C7: for any lookup table whose "baltimore" group contains an entry whose
lowercase form contains " city", a raw county string that normalizes to
"baltimore city" resolves to that entry (the first such entry found), before
any generic suffix handling. -/
theorem to_namelsad20_baltimore_city (t : List (String × List String)) (s c : String)
    (h1 : nrawCounty s = "baltimore city")
    (h2 : (lookupGet t "baltimore").find? (fun x => containsSubStr (pyLower x) " city") =
      some c) :
    to_namelsad20 s t = c := by
  unfold to_namelsad20
  rw [h1, h2]
  rfl

/-- C7 witness: "BALTIMORE  City" (odd case and spacing) resolves to the
independent city's canonical name, not the county's. -/
theorem to_namelsad20_baltimore_city_witness :
    to_namelsad20 "BALTIMORE  City" mdByName = "Baltimore city" :=
  to_namelsad20_baltimore_city mdByName "BALTIMORE  City" "Baltimore city"
    (by decide) (by decide)

/-- C10: on the empty county string (or any whitespace-only string), with a
lookup table having no empty base key, `to_namelsad20` raises no error and
returns the synthetic fallback " County" (the empty trimmed raw string with
" County" appended, retaining the separating space). -/
theorem to_namelsad20_empty_input (t : List (String × List String)) (s : String)
    (h1 : pyStrip s = "") (h2 : lookupGet t "" = []) :
    to_namelsad20 s t = " County" := by
  have hraw : rawCounty s = "" := by
    unfold rawCounty
    rw [h1]
    rfl
  have hnraw : nrawCounty s = "" := by
    unfold nrawCounty
    rw [hraw]
    rfl
  unfold to_namelsad20
  rw [hnraw, hraw, show baseOf "" = "" from rfl, h2]
  rfl

/-- C10 witness: a whitespace-only county string resolves to " County" with
the modelled Maryland lookup. -/
theorem to_namelsad20_empty_input_witness :
    to_namelsad20 "   " mdByName = " County" :=
  to_namelsad20_empty_input mdByName "   " (by decide) (by decide)

/-! ### C3: non-negativity of accumulated counts -/

lemma upsert_forall {β : Type} (Q : β → Prop) (k : String) (d : β) (f : β → β)
    (hd : Q (f d)) (hf : ∀ b, Q b → Q (f b)) :
    ∀ m : List (String × β), (∀ p ∈ m, Q p.2) → ∀ p ∈ upsert k d f m, Q p.2 := by
  intro m
  induction m with
  | nil =>
    intro _ p hp
    simp only [upsert, List.mem_singleton] at hp
    rw [hp]
    exact hd
  | cons head tl ih =>
    obtain ⟨k2, v⟩ := head
    intro hm p hp
    simp only [upsert] at hp
    by_cases hk : k2 = k
    · rw [if_pos hk] at hp
      rcases List.mem_cons.mp hp with h | h
      · rw [h]
        exact hf v (hm (k2, v) (List.mem_cons_self _ _))
      · exact hm p (List.mem_cons_of_mem _ h)
    · rw [if_neg hk] at hp
      rcases List.mem_cons.mp hp with h | h
      · rw [h]
        exact hm (k2, v) (List.mem_cons_self _ _)
      · exact ih (fun q hq => hm q (List.mem_cons_of_mem _ hq)) p h

lemma candNonneg_nil : CandNonneg [] := fun p hp => absurd hp (List.not_mem_nil p)

lemma partyNonneg_nil : PartyNonneg [] := fun p hp => absurd hp (List.not_mem_nil p)

lemma countyNonneg_nil : CountyNonneg [] := fun p hp => absurd hp (List.not_mem_nil p)

lemma contestNonneg_nil : ContestNonneg [] := fun p hp => absurd hp (List.not_mem_nil p)

lemma bump_nonneg (ca : String) (v : Int) (hv : 0 ≤ v) :
    ∀ m : CandMap, CandNonneg m → CandNonneg (upsert ca 0 (fun n => n + v) m) :=
  fun m hm =>
    upsert_forall (fun n => (0 : Int) ≤ n) ca 0 (fun n => n + v)
      (by simpa using hv) (fun b hb => add_nonneg hb hv) m hm

lemma partyUpsert_nonneg (p ca : String) (v : Int) (hv : 0 ≤ v) :
    ∀ pm : PartyMap, PartyNonneg pm →
      PartyNonneg (upsert p [] (fun cam => upsert ca 0 (fun n => n + v) cam) pm) :=
  fun pm hpm =>
    upsert_forall CandNonneg p [] _
      (bump_nonneg ca v hv [] candNonneg_nil)
      (fun b hb => bump_nonneg ca v hv b hb) pm hpm

lemma countyUpsert_nonneg (co p ca : String) (v : Int) (hv : 0 ≤ v) :
    ∀ com : CountyMap, CountyNonneg com →
      CountyNonneg (upsert co []
        (fun pm => upsert p [] (fun cam => upsert ca 0 (fun n => n + v) cam) pm) com) :=
  fun com hcom =>
    upsert_forall PartyNonneg co [] _
      (partyUpsert_nonneg p ca v hv [] partyNonneg_nil)
      (fun b hb => partyUpsert_nonneg p ca v hv b hb) com hcom

lemma contestUpsert_nonneg (c co p ca : String) (v : Int) (hv : 0 ≤ v) :
    ∀ cm : ContestMap, ContestNonneg cm →
      ContestNonneg (upsert c []
        (fun com => upsert co []
          (fun pm => upsert p [] (fun cam => upsert ca 0 (fun n => n + v) cam) pm) com)
        cm) :=
  fun cm hcm =>
    upsert_forall CountyNonneg c [] _
      (countyUpsert_nonneg co p ca v hv [] countyNonneg_nil)
      (fun b hb => countyUpsert_nonneg co p ca v hv b hb) cm hcm

lemma addVote_nonneg (t : Tally) (y c co p ca : String) (v : Int)
    (hv : 0 ≤ v) (h : TallyNonneg t) : TallyNonneg (addVote t y c co p ca v) :=
  upsert_forall ContestNonneg y [] _
    (contestUpsert_nonneg c co p ca v hv [] contestNonneg_nil)
    (fun b hb => contestUpsert_nonneg c co p ca v hv b hb) t h

lemma processRow_nonneg (lookup : List (String × List String)) (year : String)
    (t : Tally) (row : Row) (hv : 0 ≤ parseVotes row.votes) (h : TallyNonneg t) :
    TallyNonneg (processRow lookup year t row) := by
  dsimp only [processRow]
  split
  · exact addVote_nonneg _ _ _ _ _ _ _ hv h
  · exact h

lemma foldl_processRow_nonneg (lookup : List (String × List String)) (year : String) :
    ∀ rows : List Row, ∀ t : Tally, TallyNonneg t →
      (∀ r ∈ rows, 0 ≤ parseVotes r.votes) →
      TallyNonneg (rows.foldl (processRow lookup year) t) := by
  intro rows
  induction rows with
  | nil => intro t h _; simpa using h
  | cons r rs ih =>
    intro t h hr
    rw [List.foldl_cons]
    exact ih _ (processRow_nonneg _ _ _ _ (hr r (List.mem_cons_self _ _)) h)
      (fun q hq => hr q (List.mem_cons_of_mem _ hq))

lemma processFile_nonneg (lookup : List (String × List String)) (t : Tally)
    (f : String × List Row) (h : TallyNonneg t)
    (hr : ∀ r ∈ f.2, 0 ≤ parseVotes r.votes) : TallyNonneg (processFile lookup t f) := by
  dsimp only [processFile]
  split
  · exact foldl_processRow_nonneg _ _ _ _ h hr
  · exact h

lemma foldl_processFile_nonneg (lookup : List (String × List String)) :
    ∀ files : List (String × List Row), ∀ t : Tally, TallyNonneg t →
      (∀ f ∈ files, ∀ r ∈ f.2, 0 ≤ parseVotes r.votes) →
      TallyNonneg (files.foldl (processFile lookup) t) := by
  intro files
  induction files with
  | nil => intro t h _; simpa using h
  | cons f fs ih =>
    intro t h hf
    rw [List.foldl_cons]
    exact ih _ (processFile_nonneg _ _ _ h (hf f (List.mem_cons_self _ _)))
      (fun q hq => hf q (List.mem_cons_of_mem _ hq))

lemma sumValues_nonneg (m : List (String × Int)) (h : ∀ p ∈ m, (0 : Int) ≤ p.2) :
    0 ≤ sumValues m := by
  unfold sumValues
  apply List.sum_nonneg
  intro x hx
  obtain ⟨p, hp, rfl⟩ := List.mem_map.mp hx
  exact h p hp

lemma nonneg_getD {β : Type} (Q : β → Prop) (l : List (String × β)) (d : β)
    (h : ∀ p ∈ l, Q p.2) (hd : Q d) (k : String) : Q ((lookupAssoc l k).getD d) := by
  unfold lookupAssoc
  cases hm : l.find? (fun p => p.1 = k) with
  | none => exact hd
  | some p => exact h p (List.mem_of_find?_eq_some hm)

lemma summarize_nonneg (y c co : String) (bp : PartyMap) (h : PartyNonneg bp) :
    (∀ q ∈ (summarize y c co bp).all_parties, 0 ≤ q.2) ∧
    0 ≤ (summarize y c co bp).total_votes ∧
    0 ≤ (summarize y c co bp).dem_votes ∧
    0 ≤ (summarize y c co bp).rep_votes := by
  have hap : (summarize y c co bp).all_parties = bp.map (fun p => (p.1, sumValues p.2)) :=
    rfl
  have htotals : ∀ q ∈ bp.map (fun p => (p.1, sumValues p.2)), (0 : Int) ≤ q.2 := by
    intro q hq
    obtain ⟨p, hp, rfl⟩ := List.mem_map.mp hq
    exact sumValues_nonneg p.2 (h p hp)
  refine ⟨by rw [hap]; exact htotals, ?_, ?_, ?_⟩
  · exact sumValues_nonneg _ htotals
  · exact nonneg_getD (fun n => 0 ≤ n) _ 0 htotals le_rfl "DEM"
  · exact nonneg_getD (fun n => 0 ≤ n) _ 0 htotals le_rfl "REP"

lemma buildResults_nonneg (t : Tally) (h : TallyNonneg t) :
    ∀ y ∈ buildResults t, ∀ c ∈ y.2, ∀ co ∈ c.2,
      (∀ q ∈ (co.2).all_parties, 0 ≤ q.2) ∧ 0 ≤ (co.2).total_votes ∧
      0 ≤ (co.2).dem_votes ∧ 0 ≤ (co.2).rep_votes := by
  intro y hy c hc co hco
  unfold buildResults at hy
  obtain ⟨ys, _, rfl⟩ := List.mem_map.mp hy
  obtain ⟨cs, _, rfl⟩ := List.mem_map.mp hc
  obtain ⟨cos, _, rfl⟩ := List.mem_map.mp hco
  have h1 : ContestNonneg (contestOf t ys) :=
    nonneg_getD ContestNonneg t [] h contestNonneg_nil ys
  have h2 : CountyNonneg (countyOf t ys cs) :=
    nonneg_getD CountyNonneg _ [] h1 countyNonneg_nil cs
  have h3 : PartyNonneg (bucketOf t ys cs cos) :=
    nonneg_getD PartyNonneg _ [] h2 partyNonneg_nil cos
  exact summarize_nonneg ys cs cos _ h3

/-- C3 counterexample: Python `int` parses "-5", so a row whose vote field is
"-5" is accumulated as the negative count -5 — the stored per-candidate
count is not non-negative for every input row. -/
theorem tally_nonneg_cex :
    buildTally mdByName negVoteFiles =
      [("2020", [("Governor", [("Anywhere County", [("DEM", [("Smith", -5)])])])])] ∧
    ¬ TallyNonneg (buildTally mdByName negVoteFiles) := by
  constructor
  · decide
  · decide

/-- C3 amended: a vote field that does not parse as an integer contributes 0
(the row is still processed), and, provided every vote field of the input
parses to a non-negative value (Python `int` accepts negative literals),
every stored per-candidate count — hence every per-party and total count in
the output — is non-negative. -/
theorem buildTally_nonneg (lookup : List (String × List String))
    (files : List (String × List Row))
    (h : ∀ f ∈ files, ∀ r ∈ f.2, 0 ≤ parseVotes r.votes) :
    TallyNonneg (buildTally lookup files) ∧
    (∀ v : String, pyInt (pyStrip (if v = "" then "0" else v)) = none → parseVotes v = 0) ∧
    (∀ y ∈ buildResults (buildTally lookup files), ∀ c ∈ y.2, ∀ co ∈ c.2,
      (∀ q ∈ (co.2).all_parties, 0 ≤ q.2) ∧ 0 ≤ (co.2).total_votes ∧
      0 ≤ (co.2).dem_votes ∧ 0 ≤ (co.2).rep_votes) := by
  have htally : TallyNonneg (buildTally lookup files) := by
    unfold buildTally
    exact foldl_processFile_nonneg lookup files []
      (fun p hp => absurd hp (List.not_mem_nil p)) h
  refine ⟨htally, ?_, buildResults_nonneg _ htally⟩
  intro v hnone
  unfold parseVotes
  rw [hnone]

/-- C3 witness: the amended theorem applied to a one-row input with a
positive vote field. -/
theorem buildTally_nonneg_witness :
    TallyNonneg (buildTally mdByName posVoteFiles) :=
  (buildTally_nonneg mdByName posVoteFiles (by decide)).1

/-! ### C8: sorted iteration order of results_by_year -/

lemma sorted_pySorted (l : List String) :
    List.Sorted (fun a b => a ≤ b) (pySorted l) :=
  List.sorted_insertionSort _ l

lemma map_fst_map_pair {α : Type} (l : List String) (f : String → α) :
    ((l.map (fun y => (y, f y))).map (fun p => p.1)) = l := by
  rw [List.map_map]
  have h2 : ((fun p => p.1) ∘ fun y => (y, f y)) = fun y : String => y := by
    funext y
    rfl
  rw [h2]
  exact List.map_id' l

lemma buildResults_sorted (t : Tally) : ResultsSorted (buildResults t) := by
  unfold ResultsSorted buildResults
  refine ⟨?_, ?_⟩
  · rw [map_fst_map_pair]
    exact sorted_pySorted _
  · intro y hy
    obtain ⟨ys, _, rfl⟩ := List.mem_map.mp hy
    dsimp only
    refine ⟨?_, ?_⟩
    · rw [map_fst_map_pair]
      exact sorted_pySorted _
    · intro c hc
      obtain ⟨cs, _, rfl⟩ := List.mem_map.mp hc
      dsimp only
      rw [map_fst_map_pair]
      exact sorted_pySorted _

/-- C8: in the emitted `results_by_year`, for every run (any lookup table and
any input files), the year keys appear in sorted order, within each year the
contest keys appear in sorted order, and within each contest the county keys
appear in sorted order (lexicographically). -/
theorem results_by_year_sorted (lookup : List (String × List String))
    (files : List (String × List Row)) :
    ResultsSorted (buildResults (buildTally lookup files)) :=
  buildResults_sorted (buildTally lookup files)

/-- C8 witness: the ordering contract observed on a concrete run. -/
theorem results_by_year_sorted_witness :
    ResultsSorted (buildResults (buildTally mdByName posVoteFiles)) :=
  results_by_year_sorted mdByName posVoteFiles
